import Mathlib

/-!
Verification of the transport/dispatch core of the cocos-mcp editor
extension (packages/cocos-mcp/dist/main.js): newline framing over a byte
stream, JSON request decoding, namespaced method dispatch, per-request
error isolation, and the start/stop/status server lifecycle.

The embedding is shallow.  JavaScript values flowing through the server
are modelled by `JValue` (with an explicit `undef` for JavaScript
`undefined`, which is what a missing property access yields).  Thrown /
rejected JavaScript errors are modelled by `JsError`; a computation that
may throw returns `Except JsError α`.  The host editor API
(`Editor.Message.request`, `Editor.AssetDB`, `Editor.Profile`,
`process.env`, `JSON.parse`, `new Function` evaluation, `Number`
coercion) is platform functionality, modelled as fields of a `Host`
record so that theorems quantify over every possible host behaviour.
-/

/-- A JavaScript value as it appears in this server: `undef` models
`undefined` (missing property / absent `params`), the rest mirror JSON.
Numbers are modelled as integers; no claim here depends on non-integral
or NaN number behaviour. -/
inductive JValue : Type
  | undef : JValue
  | null : JValue
  | bool : Bool → JValue
  | num : Int → JValue
  | str : String → JValue
  | arr : List JValue → JValue
  | obj : List (String × JValue) → JValue

/-- A thrown JavaScript error value: `message` is its `.message` property
(`none` when absent), `asString` its `String(err)` form. -/
structure JsError : Type where
  message : Option String
  asString : String
deriving DecidableEq

/-- `new Error(m)` as thrown by main.js itself. -/
def JsError.ofError (m : String) : JsError :=
  { message := some m, asString := "Error: " ++ m }

/-- A TypeError raised by the runtime (e.g. property access on null,
calling a missing method). -/
def JsError.typeError (m : String) : JsError :=
  { message := some m, asString := "TypeError: " ++ m }

/-- `err?.message || String(err)`: the message when it is a non-empty
string, otherwise the string form (an empty string is falsy in JS). -/
def JsError.toMessage (e : JsError) : String :=
  match e.message with
  | some m => if m = "" then e.asString else m
  | none => e.asString

/-- JavaScript property access `v[k]` on a value that is NOT null or
undefined: an object yields its first binding for `k` (or `undefined`),
any other base value yields `undefined`.  This is also exactly the
optional-chaining access `v?.k` for every `v` (on null/undefined the
optional chain yields `undefined` instead of throwing). -/
def jsGetD (v : JValue) (k : String) : JValue :=
  match v with
  | JValue.obj fs =>
    match fs.find? (fun p => p.1 == k) with
    | some p => p.2
    | none => JValue.undef
  | _ => JValue.undef

/-- Plain (non-optional) property access `v[k]`: throws a TypeError when
`v` is null or undefined, otherwise behaves like `jsGetD`. -/
def jsGet (v : JValue) (k : String) : Except JsError JValue :=
  match v with
  | JValue.undef =>
    Except.error (JsError.typeError ("Cannot read properties of undefined (reading " ++ k ++ ")"))
  | JValue.null =>
    Except.error (JsError.typeError ("Cannot read properties of null (reading " ++ k ++ ")"))
  | v => Except.ok (jsGetD v k)

/-- JavaScript truthiness of a `JValue`. -/
def jsTruthy (v : JValue) : Bool :=
  match v with
  | JValue.undef => false
  | JValue.null => false
  | JValue.bool b => b
  | JValue.num n => n != 0
  | JValue.str s => s != ""
  | JValue.arr _ => true
  | JValue.obj _ => true

/-- Boolean prefix test on character lists (cases on the pattern first,
then on the subject, so that it reduces whenever the pattern is
concrete). -/
def charsPrefix (p s : List Char) : Bool :=
  match p with
  | [] => true
  | a :: as =>
    match s with
    | [] => false
    | b :: bs => a == b && charsPrefix as bs

/-- `s.startsWith(p)` of JavaScript strings. -/
def jsStartsWith (s p : String) : Bool :=
  charsPrefix p.data s.data

/-- `s.slice(n)` of JavaScript strings (drop the first `n` units). -/
def jsSlice (s : String) (n : Nat) : String :=
  ⟨s.data.drop n⟩

/-- One response object as built by main.js: `{id, result}` on success or
`{id, error: {message}}` on failure; `result`/`error` are `none` when the
corresponding key is absent. -/
structure Response : Type where
  id : JValue
  result : Option JValue
  error : Option String

/-- The platform surrounding main.js, everything reached through
`Editor`, `process.env`, `Buffer`, `JSON.parse`, `Number` and
`new Function`.
`utf8Decode` models `Buffer.prototype.toString("utf8")`, applied by the
data handler to each arriving byte chunk separately (a chunk that ends
inside a multibyte UTF-8 sequence therefore decodes its truncated tail
to U+FFFD replacement characters, as Node does);
`jsonParse` models `JSON.parse`;
`messageRequest ns msg args` models `Editor.Message.request(ns, msg,
...args)` for a STRING message name `msg` (`none` when
`Editor?.Message?.request` is unavailable), while
`messageRequestUndefName ns args` models the same function invoked with
`undefined` as the message name — which `requestAssetDB` does when the
assets mapping lookup hit a property inherited from `Object.prototype`,
whose `.msg` is undefined (consulted only when `messageRequest` is
present, mirroring the `message?.request` guard);
`assetdb` models `Editor.AssetDB || Editor.assetdb`, mapping a property
name to the function stored there (if any); `mainEval code args` models
calling `new Function("Editor", "args", code)`; `profileGet` models
`Editor?.Profile?.getProject` (`none` when absent, and the call itself
may throw); `strNum s` / `valNum v` model `Number(x)` filtered by
`Number.isFinite` (`none` when not finite). -/
structure Host : Type where
  utf8Decode : List Nat → List Char
  jsonParse : List Char → Except JsError JValue
  messageRequest : Option (String → String → List JValue → Except JsError JValue)
  messageRequestUndefName : String → List JValue → Except JsError JValue
  assetdb : Option (String → Option (JValue → Except JsError JValue))
  mainEval : String → JValue → Except JsError JValue
  envPort : Option String
  profileGet : Option (String → String → Except JsError JValue)
  strNum : String → Option Int
  valNum : JValue → Option Int

/-- main.js `sceneDispatch(method, params)`: forwards to
`Editor.Message.request("scene", "execute-scene-script", {name, method,
args})` where `args` is `params` if it is an array, `[params]` if it is
defined, and `[]` when it is undefined. -/
def sceneDispatch (host : Host) (method : String) (params : JValue) : Except JsError JValue :=
  match host.messageRequest with
  | none => Except.error (JsError.ofError "Editor.Message.request is not available")
  | some mreq =>
    mreq "scene" "execute-scene-script"
      [JValue.obj
        [("name", JValue.str "cocos-mcp"),
         ("method", JValue.str method),
         ("args",
          match params with
          | JValue.arr xs => JValue.arr xs
          | JValue.undef => JValue.arr []
          | p => JValue.arr [p])]]

/-- The tail of main.js `requestAssetDB` after a missing/failed
`Editor.Message.request`, given an available assetdb object: try
`assetdb[method]` (an undefined `method` — `none` here — coerces to the
property key `"undefined"` under JS ToPropertyKey), then rethrow
`lastErr` or report the API as unavailable. -/
def requestAssetDBLast (adb : String → Option (JValue → Except JsError JValue))
    (method : Option String) (params : JValue) (lastErr : Option JsError) :
    Except JsError JValue :=
  match adb (match method with | some m => m | none => "undefined") with
  | some f => f params
  | none =>
    match lastErr with
    | some e => Except.error e
    | none => Except.error (JsError.ofError "AssetDB API not available")

/-- main.js `requestAssetDB` fallback chain once `Editor.Message.request`
is unavailable (`lastErr = none`) or has rejected (`lastErr = some e`).
`fnName && typeof assetdb[fnName] === "function"`: an undefined `fnName`
(`none`) and the empty string are falsy and skip the first branch. -/
def requestAssetDBFallback (host : Host) (method : Option String) (params : JValue)
    (fnName : Option String) (lastErr : Option JsError) : Except JsError JValue :=
  match host.assetdb with
  | some adb =>
    match fnName with
    | some fn =>
      if fn = "" then requestAssetDBLast adb method params lastErr
      else
        match adb fn with
        | some f => f params
        | none => requestAssetDBLast adb method params lastErr
    | none => requestAssetDBLast adb method params lastErr
  | none =>
    match lastErr with
    | some e => Except.error e
    | none => Except.error (JsError.ofError "AssetDB API not available")

/-- main.js `requestAssetDB(message, assetdb, method, params, fnName)`:
first try `message.request("asset-db", method, params)`, falling back to
the assetdb object on rejection or unavailability.  At the JS level
`method` and `fnName` are arbitrary values: every call site passes either
a string or `undefined` (modelled as `Option String`, `none` =
undefined); an undefined `method` reaches `Editor.Message.request` as a
non-string message name. -/
def requestAssetDB (host : Host) (method : Option String) (params : JValue)
    (fnName : Option String) : Except JsError JValue :=
  match host.messageRequest with
  | some mreq =>
    match (match method with
           | some m => mreq "asset-db" m [params]
           | none => host.messageRequestUndefName "asset-db" [params]) with
    | Except.ok v => Except.ok v
    | Except.error e => requestAssetDBFallback host method params fnName (some e)
  | none => requestAssetDBFallback host method params fnName none

/-- The property names every object literal inherits from
`Object.prototype` (V8/Node): reading any of these on the `mapping`
literal yields a truthy value — a function, or `Object.prototype` itself
for `__proto__` — whose own `.msg` and `.fn` properties are undefined. -/
def objectProtoProps : List String :=
  ["constructor", "hasOwnProperty", "isPrototypeOf", "propertyIsEnumerable",
   "toLocaleString", "toString", "valueOf", "__proto__",
   "__defineGetter__", "__defineSetter__", "__lookupGetter__", "__lookupSetter__"]

/-- The result of the JS property read `mapping[method]`: an own entry
`{msg, fn}`, a truthy value inherited from `Object.prototype` (so
`!entry` is false but `entry.msg` / `entry.fn` are undefined), or
`undefined`. -/
inductive MappingEntry : Type
  | own : String → String → MappingEntry
  | inherited : MappingEntry
  | missing : MappingEntry

/-- The `mapping` object literal of main.js `assetsDispatch`, read via
`mapping[method]`: the nine own entries map a friendly leaf name to
(asset-db message name, assetdb function name); a property name
inherited from `Object.prototype` yields a truthy non-entry; everything
else yields `undefined`. -/
def assetsMapping (m : String) : MappingEntry :=
  if m = "find" then MappingEntry.own "query-assets" "queryAssets"
  else if m = "getInfo" then MappingEntry.own "query-asset-info" "queryAssetInfo"
  else if m = "create" then MappingEntry.own "create-asset" "createAsset"
  else if m = "import" then MappingEntry.own "import-asset" "importAsset"
  else if m = "move" then MappingEntry.own "move-asset" "moveAsset"
  else if m = "rename" then MappingEntry.own "rename-asset" "renameAsset"
  else if m = "delete" then MappingEntry.own "delete-asset" "deleteAsset"
  else if m = "getDependencies" then MappingEntry.own "query-deps" "queryDeps"
  else if m = "reveal" then MappingEntry.own "reveal-in-explorer" "revealInExplorer"
  else if m ∈ objectProtoProps then MappingEntry.inherited
  else MappingEntry.missing

/-- main.js `assetsDispatch(method, params)`.  `!entry` is false for a
mapping hit inherited from `Object.prototype`, so that case takes the
`entry.msg`/`entry.fn` call with both undefined. -/
def assetsDispatch (host : Host) (method : String) (params : JValue) : Except JsError JValue :=
  if method = "request" then
    if !(jsTruthy params) then
      Except.error (JsError.ofError "assets.request requires \x7b method, params? \x7d")
    else
      match jsGetD params "method" with
      | JValue.str m => requestAssetDB host (some m) (jsGetD params "params") none
      | _ => Except.error (JsError.ofError "assets.request requires \x7b method, params? \x7d")
  else
    match assetsMapping method with
    | MappingEntry.missing => requestAssetDB host (some method) params none
    | MappingEntry.inherited => requestAssetDB host none params none
    | MappingEntry.own msg fn => requestAssetDB host (some msg) params (some fn)

/-- main.js `editorDispatch(method, params)`. -/
def editorDispatch (host : Host) (method : String) (params : JValue) : Except JsError JValue :=
  match host.messageRequest with
  | none => Except.error (JsError.ofError "Editor.Message.request is not available")
  | some mreq =>
    if method = "saveScene" then mreq "scene" "save-scene" []
    else if method = "queryDirty" then mreq "scene" "query-dirty" []
    else if method = "openScene" then
      if !(jsTruthy (jsGetD params "uuid")) then
        Except.error (JsError.ofError "editor.openScene requires \x7b uuid \x7d")
      else mreq "scene" "open-scene" [jsGetD params "uuid"]
    else if method = "undo" then mreq "scene" "undo" []
    else if method = "redo" then mreq "scene" "redo" []
    else if method = "instantiatePrefab" then
      if !(jsTruthy (jsGetD params "assetUuid")) then
        Except.error (JsError.ofError "editor.instantiatePrefab requires \x7b assetUuid, parentUuid? \x7d")
      else
        mreq "scene" "create-node"
          [JValue.obj
            [("parent",
              if jsTruthy (jsGetD params "parentUuid") then jsGetD params "parentUuid"
              else JValue.str ""),
             ("assetUuid", jsGetD params "assetUuid"),
             ("type", JValue.str "cc.Prefab")]]
    else if method = "createPrefab" then
      if !(jsTruthy (jsGetD params "nodeUuid")) || !(jsTruthy (jsGetD params "path")) then
        Except.error (JsError.ofError "editor.createPrefab requires \x7b nodeUuid, path \x7d")
      else mreq "scene" "create-prefab" [jsGetD params "nodeUuid", jsGetD params "path"]
    else Except.error (JsError.ofError ("Unknown editor method: " ++ method))

/-- main.js `execute(params)`: the sandboxed code-execution path. -/
def execute (host : Host) (params : JValue) : Except JsError JValue :=
  if !(jsTruthy params) then
    Except.error (JsError.ofError "execute requires \x7b scope, code, args? \x7d")
  else
    match jsGetD params "scope", jsGetD params "code" with
    | JValue.str scope, JValue.str code =>
      if scope = "scene" then sceneDispatch host "execute" params
      else if scope = "main" then
        host.mainEval code (if jsTruthy (jsGetD params "args") then jsGetD params "args" else JValue.arr [])
      else Except.error (JsError.ofError ("Unknown execute scope: " ++ scope))
    | _, _ => Except.error (JsError.ofError "execute requires \x7b scope, code, args? \x7d")

/-- main.js `dispatch(method, params)`.  The `method` argument is
`req.method`, an arbitrary parsed value: on a non-string the strict
equality tests fail and `method.startsWith` raises a TypeError (rejecting
the dispatch promise), exactly as in the source. -/
def dispatch (host : Host) (method : JValue) (params : JValue) : Except JsError JValue :=
  match method with
  | JValue.str m =>
    if m = "ping" then Except.ok (JValue.str "pong")
    else if m = "execute" then execute host params
    else if jsStartsWith m "scene." then sceneDispatch host (jsSlice m 6) params
    else if jsStartsWith m "assets." then assetsDispatch host (jsSlice m 7) params
    else if jsStartsWith m "editor." then editorDispatch host (jsSlice m 7) params
    else Except.error (JsError.ofError ("Unknown method: " ++ m))
  | JValue.undef =>
    Except.error (JsError.typeError "Cannot read properties of undefined (reading startsWith)")
  | JValue.null =>
    Except.error (JsError.typeError "Cannot read properties of null (reading startsWith)")
  | _ => Except.error (JsError.typeError "method.startsWith is not a function")

/-- main.js `handleRequest(req)`.  The entry log line interpolates
`req.method` and `req.id` BEFORE the try block, so when those property
accesses throw (req is the JSON value null) the rejection escapes
`handleRequest` — modelled by the `Except.error` results.  Otherwise the
try/catch turns any dispatch rejection into an `{id, error:{message}}`
response; `req.params` is read inside the try but cannot throw once the
log-line accesses have succeeded. -/
def handleRequest (host : Host) (req : JValue) : Except JsError Response :=
  match jsGet req "method", jsGet req "id" with
  | Except.ok m, Except.ok i =>
    Except.ok
      (match dispatch host m (jsGetD req "params") with
       | Except.ok r => { id := i, result := some r, error := none }
       | Except.error e => { id := i, result := none, error := some e.toMessage })
  | Except.error e, _ => Except.error e
  | _, Except.error e => Except.error e

/-- The whitespace class removed by JavaScript `String.prototype.trim`
(ECMA-262 TrimString): WhiteSpace — tab, VT, FF, space, NBSP, BOM and
the Zs category (U+1680, U+2000..U+200A, U+202F, U+205F, U+3000) — plus
the LineTerminator characters LF, CR, LS, PS. -/
def jsWhitespace (c : Char) : Bool :=
  c = ' ' || c = '\t' || c = '\n' || c = '\r' || c = '\x0b' || c = '\x0c' ||
  c = '\u00A0' || c = '\uFEFF' || c = '\u1680' ||
  ('\u2000' ≤ c && c ≤ '\u200A') ||
  c = '\u2028' || c = '\u2029' || c = '\u202F' || c = '\u205F' || c = '\u3000'

/-- `line.trim()` on a JavaScript string, as a character list. -/
def jsTrim (l : List Char) : List Char :=
  ((l.dropWhile jsWhitespace).reverse.dropWhile jsWhitespace).reverse

/-- One step of the framing loop of the socket data handler:
`idx = buffer.indexOf("\n")`; when `idx >= 0` yield
`(buffer.slice(0, idx), buffer.slice(idx + 1))`, otherwise nothing. -/
def takeLine (buf : List Char) : Option (List Char × List Char) :=
  match buf.dropWhile (fun c => c != '\n') with
  | [] => none
  | _ :: tail => some (buf.takeWhile (fun c => c != '\n'), tail)


/-- The pure framing portion of the socket data handler (the Line Framer
component): repeatedly extract everything up to the next newline, trim
it, skip lines that trim to empty, and emit the rest in order; the
returned second component is the retained buffer (no newline left). -/
def frameLoop (buf : List Char) : List (List Char) × List Char :=
  match h : takeLine buf with
  | none => ([], buf)
  | some (seg, rest) =>
    let line := jsTrim seg
    let r := frameLoop rest
    if line = [] then r else (line :: r.1, r.2)
termination_by buf.length
decreasing_by
  unfold takeLine at h
  rcases hdw : List.dropWhile (fun c => c != '\n') buf with _ | ⟨d, tail⟩
  · rw [hdw] at h; cases h
  · rw [hdw] at h
    have hle : (List.dropWhile (fun c => c != '\n') buf).length ≤ buf.length :=
      (List.dropWhile_sublist _).length_le
    rw [hdw] at hle
    simp only [Option.some.injEq, Prod.mk.injEq] at h
    obtain ⟨-, h2⟩ := h
    subst h2
    simp at hle
    omega

/-- The text-level part of feeding a sequence of data chunks to one
connection, after each byte chunk has been decoded (see `feedBytes`):
each decoded chunk is appended to the retained buffer and the framing
loop is run; emitted lines accumulate in order. -/
def feedChunks (st : List Char) (chunks : List (List Char)) : List (List Char) × List Char :=
  match chunks with
  | [] => ([], st)
  | c :: cs =>
    let r := frameLoop (st ++ c)
    let r2 := feedChunks r.2 cs
    (r.1 ++ r2.1, r2.2)

/-- `L1 ++ "\n" ++ L2 ++ "\n" ++ ... ++ Ln ++ "\n"`. -/
def joinNL (Ls : List (List Char)) : List Char :=
  (Ls.map (fun L => L ++ ['\n'])).flatten

/-- The socket data events at byte level, as in main.js:
`buffer += data.toString("utf8")` decodes each arriving byte chunk
separately before appending it to the retained text buffer and framing.
A chunk boundary inside a multibyte UTF-8 sequence therefore yields
U+FFFD replacement characters from the per-chunk decoder. -/
def feedBytes (host : Host) (st : List Char) (chunks : List (List Nat)) :
    List (List Char) × List Char :=
  feedChunks st (chunks.map host.utf8Decode)

/-- The response synthesized for a line that failed JSON parsing:
`{id: -1, error: {message: "Invalid JSON: " + (err?.message || err)}}`. -/
def invalidJsonResp (e : JsError) : Response :=
  { id := JValue.num (-1), result := none, error := some ("Invalid JSON: " ++ e.toMessage) }

/-- How one run of the socket data handler loop ends: `done` with the
retained buffer, or `crashed` when `await handleRequest(req)` rejected
(the rejection leaves the async data callback, so the remaining buffered
text `residue` is never processed by this run). -/
inductive LoopEnd : Type
  | done : List Char → LoopEnd
  | crashed : JsError → List Char → LoopEnd

/-- The full socket data handler loop of main.js over the buffer: frame a
line, trim it, skip it when empty, JSON-parse it (on failure emit the
`id: -1` response and continue), otherwise run `handleRequest` and emit
its response.  The emitted responses are the socket writes, in order. -/
def processBuf (host : Host) (buf : List Char) : List Response × LoopEnd :=
  match h : takeLine buf with
  | none => ([], LoopEnd.done buf)
  | some (seg, rest) =>
    let line := jsTrim seg
    if line = [] then processBuf host rest
    else
      match host.jsonParse line with
      | Except.error e =>
        let r := processBuf host rest
        (invalidJsonResp e :: r.1, r.2)
      | Except.ok req =>
        match handleRequest host req with
        | Except.ok resp =>
          let r := processBuf host rest
          (resp :: r.1, r.2)
        | Except.error e => ([], LoopEnd.crashed e rest)
termination_by buf.length
decreasing_by
  all_goals
    (unfold takeLine at h
     rcases hdw : List.dropWhile (fun c => c != '\n') buf with _ | ⟨d, tail⟩ <;>
       rw [hdw] at h
     · cases h
     · have hle : (d :: tail).length ≤ buf.length := by
         have h3 := (List.dropWhile_sublist (l := buf) (fun c => c != '\n')).length_le
         rw [hdw] at h3
         exact h3
       simp only [Option.some.injEq, Prod.mk.injEq] at h
       obtain ⟨-, h2⟩ := h
       subst h2
       simp at hle
       omega)

/-- `DEFAULT_PORT` of main.js. -/
def DEFAULT_PORT : Int := 8787

/-- The `try { Editor?.Profile?.getProject ... } catch {}` part of
main.js `getPort`: when the profile getter is absent, throws, or yields a
non-finite value, fall back to the default port. -/
def getPortFallback (host : Host) : Int :=
  match host.profileGet with
  | none => DEFAULT_PORT
  | some pg =>
    match pg "cocos-mcp" "port" with
    | Except.error _ => DEFAULT_PORT
    | Except.ok v =>
      match host.valNum v with
      | some n => n
      | none => DEFAULT_PORT

/-- main.js `getPort()`: the `COCOS_MCP_PORT` environment value when it
is truthy (non-empty) and finite as a number, else the profile value,
else 8787.  (The source has a single fall-through; the fallback is
spelled out per branch here.) -/
def getPort (host : Host) : Int :=
  match host.envPort with
  | some s =>
    if s = "" then getPortFallback host
    else
      match host.strNum s with
      | some n => n
      | none => getPortFallback host
  | none => getPortFallback host

/-- The module-level mutable state of main.js: `server` (the listening
socket, `none` when stopped, carrying its bound port when listening) and
`activeSockets` (the set of live connections, modelled by ids). -/
structure ServerState : Type where
  server : Option Int
  activeSockets : Finset Nat
deriving DecidableEq

/-- main.js `startServer()`: a no-op when a listener already exists,
otherwise resolve the port and bind. -/
def startServer (host : Host) (s : ServerState) : ServerState :=
  match s.server with
  | some _ => s
  | none => { s with server := some (getPort host) }

/-- main.js `stopServer()`: a no-op when already stopped; otherwise
destroy every socket in the active set (returned as the second
component), clear the set, close and null the listener. -/
def stopServer (s : ServerState) : ServerState × Finset Nat :=
  match s.server with
  | none => (s, ∅)
  | some _ => ({ server := none, activeSockets := ∅ }, s.activeSockets)

/-- main.js `methods.status()`:
`{running: !!server, port: getPort(), clients: activeSockets.size}`,
returned as the JavaScript object it builds (so the key names are part
of the model). -/
def statusQuery (host : Host) (s : ServerState) : JValue :=
  JValue.obj
    [("running", JValue.bool s.server.isSome),
     ("port", JValue.num (getPort host)),
     ("clients", JValue.num (s.activeSockets.card : Int))]

/-- Key lookup on a `JValue` object (first binding wins), `none` when
the key is absent or the value is not an object. -/
def jLookup (v : JValue) (k : String) : Option JValue :=
  match v with
  | JValue.obj fs =>
    match fs.find? (fun p => p.1 == k) with
    | some p => p.2
    | none => none
  | _ => none

/-- A SyntaxError value such as `JSON.parse` throws on malformed input. -/
def synErr : JsError :=
  { message := some "Unexpected token", asString := "SyntaxError: Unexpected token" }

/-- A concrete minimal host for witnesses: the byte decoder is the
identity on the ASCII-only chunks fed to it (matching Node on such
input); its `JSON.parse` recognises the line `null` (valid JSON!) and
the line `ok` (a ping request with id 7), rejecting everything else; a
request with an undefined message name is rejected; the editor APIs are
absent. -/
def hostA : Host :=
  { utf8Decode := fun bs => bs.map (fun b => Char.ofNat b)
    jsonParse := fun l =>
      if l = ['n', 'u', 'l', 'l'] then Except.ok JValue.null
      else if l = ['o', 'k'] then
        Except.ok (JValue.obj [("id", JValue.num 7), ("method", JValue.str "ping")])
      else Except.error synErr
    messageRequest := none
    messageRequestUndefName := fun _ _ =>
      Except.error (JsError.ofError "Message name undefined")
    assetdb := none
    mainEval := fun _ _ => Except.ok JValue.undef
    envPort := none
    profileGet := none
    strNum := fun _ => none
    valNum := fun _ => none }

/-- A concrete host whose `Editor.Message.request` is available and
answers every string-named request with the message name it was sent
(and, inherited from `hostA`, rejects an undefined message name). -/
def hostB : Host :=
  { hostA with messageRequest := some (fun _ msg _ => Except.ok (JValue.str msg)) }

/-- A concrete host whose byte decoder exhibits Node
`Buffer.toString("utf8")` behaviour on the multibyte chunks used below:
the truncated lead byte `C3` alone decodes to U+FFFD, the orphan
continuation byte `A9` decodes to U+FFFD (so `[A9, 0A]` is U+FFFD
followed by the newline), the complete sequence `C3 A9` decodes to
U+00E9 (é), and `C2 A0` decodes to U+00A0 (no-break space); ASCII-only
chunks decode as themselves. -/
def hostU : Host :=
  { hostA with utf8Decode := fun bs =>
      if bs = [0xC3] then ['\uFFFD']
      else if bs = [0xA9, 0x0A] then ['\uFFFD', '\n']
      else if bs = [0xC3, 0xA9, 0x0A] then ['\u00E9', '\n']
      else if bs = [0xC2, 0xA0, 0x61, 0x0A] then ['\u00A0', 'a', '\n']
      else bs.map (fun b => Char.ofNat b) }

/-- A concrete host with a numeric `COCOS_MCP_PORT` environment value. -/
def hostEnv : Host :=
  { hostA with
    envPort := some "9001"
    strNum := fun s => if s = "9001" then some 9001 else none }

/-- A concrete host whose profile getter throws. -/
def hostProfErr : Host :=
  { hostA with profileGet := some (fun _ _ => Except.error (JsError.ofError "profile failure")) }

/-- A concrete host whose profile getter yields a numeric port. -/
def hostProf : Host :=
  { hostA with
    profileGet := some (fun _ _ => Except.ok (JValue.num 9100))
    valNum := fun v => match v with | JValue.num n => some n | _ => none }

/-! ### Framing lemmas -/

theorem dropWhile_append_nl (seg rest : List Char) (h : '\n' ∉ seg) :
    (seg ++ '\n' :: rest).dropWhile (fun c => c != '\n') = '\n' :: rest := by
  induction seg with
  | nil => simp [List.dropWhile_cons]
  | cons c cs ih =>
    have hc : c ≠ '\n' := fun hh => h (hh ▸ List.mem_cons_self c cs)
    have hcs : '\n' ∉ cs := fun hh => h (List.mem_cons_of_mem c hh)
    simp [List.dropWhile_cons, hc, ih hcs]

theorem takeWhile_append_nl (seg rest : List Char) (h : '\n' ∉ seg) :
    (seg ++ '\n' :: rest).takeWhile (fun c => c != '\n') = seg := by
  induction seg with
  | nil => simp [List.takeWhile_cons]
  | cons c cs ih =>
    have hc : c ≠ '\n' := fun hh => h (hh ▸ List.mem_cons_self c cs)
    have hcs : '\n' ∉ cs := fun hh => h (List.mem_cons_of_mem c hh)
    simp [List.takeWhile_cons, hc, ih hcs]

theorem takeLine_of_split (seg rest : List Char) (h : '\n' ∉ seg) :
    takeLine (seg ++ '\n' :: rest) = some (seg, rest) := by
  rw [takeLine, dropWhile_append_nl seg rest h, takeWhile_append_nl seg rest h]

theorem takeLine_split : ∀ {buf seg rest : List Char}, takeLine buf = some (seg, rest) →
    buf = seg ++ '\n' :: rest ∧ '\n' ∉ seg := by
  intro buf
  induction buf with
  | nil => intro seg rest h; simp [takeLine] at h
  | cons c cs ih =>
    intro seg rest h
    by_cases hc : c = '\n'
    · subst hc
      simp [takeLine, List.dropWhile_cons, List.takeWhile_cons] at h
      obtain ⟨hs, hr⟩ := h
      subst hs; subst hr
      simp
    · have hcb : (c != '\n') = true := by simp [hc]
      cases hdw : cs.dropWhile (fun x => x != '\n') with
      | nil =>
        rw [takeLine, List.dropWhile_cons] at h
        simp [hcb, hdw] at h
      | cons d tail =>
        rw [takeLine, List.dropWhile_cons] at h
        simp only [hcb, if_true, hdw, List.takeWhile_cons] at h
        have hcs : takeLine cs = some (cs.takeWhile (fun x => x != '\n'), tail) := by
          rw [takeLine, hdw]
        obtain ⟨hcs1, hcs2⟩ := ih hcs
        simp only [Option.some.injEq, Prod.mk.injEq] at h
        obtain ⟨hseg, hrest⟩ := h
        subst hseg; subst hrest
        refine ⟨by simp [← hcs1], ?_⟩
        simp only [List.mem_cons, not_or]
        exact ⟨fun hh => hc hh.symm, hcs2⟩

theorem takeLine_append {a b seg rest : List Char} (h : takeLine a = some (seg, rest)) :
    takeLine (a ++ b) = some (seg, rest ++ b) := by
  obtain ⟨ha, hseg⟩ := takeLine_split h
  subst ha
  rw [List.append_assoc, List.cons_append]
  exact takeLine_of_split seg (rest ++ b) hseg

theorem frameLoop_none {buf : List Char} (h : takeLine buf = none) :
    frameLoop buf = ([], buf) := by
  rw [frameLoop.eq_def]
  split
  · rfl
  · rename_i h2; rw [h] at h2; cases h2

theorem frameLoop_some {buf seg rest : List Char} (h : takeLine buf = some (seg, rest)) :
    frameLoop buf =
      if jsTrim seg = [] then frameLoop rest
      else (jsTrim seg :: (frameLoop rest).1, (frameLoop rest).2) := by
  rw [frameLoop.eq_def]
  split
  · rename_i h2; rw [h] at h2; cases h2
  · rename_i seg' rest' h2
    rw [h] at h2
    injection h2 with h3
    injection h3 with h4 h5
    subst h4; subst h5
    rfl

theorem frameLoop_append (a b : List Char) :
    frameLoop (a ++ b) = ((frameLoop a).1 ++ (frameLoop ((frameLoop a).2 ++ b)).1,
                          (frameLoop ((frameLoop a).2 ++ b)).2) := by
  induction a using frameLoop.induct with
  | case1 a ha =>
    rw [frameLoop_none ha]
    simp
  | case2 a seg rest ha line hline ih =>
    have hline2 : jsTrim seg = [] := hline
    rw [frameLoop_some (takeLine_append ha), frameLoop_some ha, if_pos hline2, if_pos hline2]
    exact ih
  | case3 a seg rest ha line hline ih =>
    have hline2 : jsTrim seg ≠ [] := hline
    rw [frameLoop_some (takeLine_append ha), frameLoop_some ha, if_neg hline2, if_neg hline2]
    rw [ih]
    simp

theorem frameLoop_residue (buf : List Char) : takeLine (frameLoop buf).2 = none := by
  induction buf using frameLoop.induct with
  | case1 a ha => rw [frameLoop_none ha]; exact ha
  | case2 a seg rest ha line hline ih =>
    rw [frameLoop_some ha, if_pos hline]
    exact ih
  | case3 a seg rest ha line hline ih =>
    rw [frameLoop_some ha, if_neg hline]
    exact ih

theorem feedChunks_eq (chunks : List (List Char)) :
    ∀ st : List Char, takeLine st = none →
      feedChunks st chunks = frameLoop (st ++ chunks.flatten) := by
  induction chunks with
  | nil =>
    intro st hst
    simp [feedChunks, frameLoop_none hst]
  | cons c cs ih =>
    intro st hst
    rw [feedChunks]
    have hres := frameLoop_residue (st ++ c)
    rw [ih _ hres]
    rw [List.flatten_cons, ← List.append_assoc, frameLoop_append (st ++ c) cs.flatten]

theorem frameLoop_joinNL : ∀ Ls : List (List Char), (∀ L ∈ Ls, '\n' ∉ L) →
    frameLoop (joinNL Ls) = ((Ls.map jsTrim).filter (fun l => !l.isEmpty), []) := by
  intro Ls
  induction Ls with
  | nil =>
    intro _
    have h0 : takeLine ([] : List Char) = none := rfl
    have h1 : joinNL [] = [] := rfl
    rw [h1, frameLoop_none h0]
    rfl
  | cons L Ls ih =>
    intro h
    have hL : '\n' ∉ L := h L (List.mem_cons_self L Ls)
    have hLs : ∀ M ∈ Ls, '\n' ∉ M := fun M hm => h M (List.mem_cons_of_mem L hm)
    have hjoin : joinNL (L :: Ls) = L ++ '\n' :: joinNL Ls := by
      rw [joinNL, List.map_cons, List.flatten_cons, List.append_assoc]
      rfl
    rw [hjoin, frameLoop_some (takeLine_of_split L (joinNL Ls) hL), ih hLs]
    by_cases he : jsTrim L = []
    · rw [if_pos he]
      simp [he]
    · rw [if_neg he]
      have : (jsTrim L).isEmpty = false := by
        cases hc : jsTrim L with
        | nil => exact absurd hc he
        | cons x xs => rfl
      simp [this]

/-! ### Request/response cycle lemmas -/

theorem processBuf_none (host : Host) {buf : List Char} (h : takeLine buf = none) :
    processBuf host buf = ([], LoopEnd.done buf) := by
  rw [processBuf.eq_def]
  split
  · rfl
  · rename_i h2; rw [h] at h2; cases h2

theorem processBuf_some (host : Host) {buf seg rest : List Char}
    (h : takeLine buf = some (seg, rest)) :
    processBuf host buf =
      if jsTrim seg = [] then processBuf host rest
      else
        match host.jsonParse (jsTrim seg) with
        | Except.error e =>
          (invalidJsonResp e :: (processBuf host rest).1, (processBuf host rest).2)
        | Except.ok req =>
          match handleRequest host req with
          | Except.ok resp => (resp :: (processBuf host rest).1, (processBuf host rest).2)
          | Except.error e => ([], LoopEnd.crashed e rest) := by
  rw [processBuf.eq_def]
  split
  · rename_i h2; rw [h] at h2; cases h2
  · rename_i seg' rest' h2
    rw [h] at h2
    injection h2 with h3
    injection h3 with h4 h5
    subst h4; subst h5
    rfl

theorem handleRequest_eq_ok (host : Host) (req : JValue)
    (h1 : req ≠ JValue.null) (h2 : req ≠ JValue.undef) :
    handleRequest host req = Except.ok
      (match dispatch host (jsGetD req "method") (jsGetD req "params") with
       | Except.ok r => ({ id := jsGetD req "id", result := some r, error := none } : Response)
       | Except.error e =>
         { id := jsGetD req "id", result := none, error := some e.toMessage }) := by
  cases req with
  | null => exact absurd rfl h1
  | undef => exact absurd rfl h2
  | bool b => rfl
  | num n => rfl
  | str s => rfl
  | arr xs => rfl
  | obj fs => rfl

theorem handleRequest_ok_shape (host : Host) (req : JValue) (resp : Response)
    (h : handleRequest host req = Except.ok resp) :
    resp.id = jsGetD req "id" ∧ resp.result.isSome = resp.error.isNone := by
  by_cases h1 : req = JValue.null
  · subst h1; exact Except.noConfusion h
  by_cases h2 : req = JValue.undef
  · subst h2; exact Except.noConfusion h
  rw [handleRequest_eq_ok host req h1 h2] at h
  injection h with h3
  subst h3
  rcases hd : dispatch host (jsGetD req "method") (jsGetD req "params") with e | r <;> simp [hd]

/-! ### Claims -/

/-- C1, counterexample.  The JSON text `null` parses successfully, yet
`handleRequest` does NOT catch the resulting error and return an error
response: the entry log line reads `req.method` before the try block, so
the TypeError escapes the Request/Response Cycle as a rejection (and at
the data-handler level the loop crashes, writing no response at all and
abandoning the rest of the buffer). -/
theorem spec_c1_counterexample :
    hostA.jsonParse (jsTrim ['n', 'u', 'l', 'l']) = Except.ok JValue.null ∧
    handleRequest hostA JValue.null =
      Except.error (JsError.typeError "Cannot read properties of null (reading method)") ∧
    (handleRequest hostA JValue.null).isOk = false ∧
    processBuf hostA (['n', 'u', 'l', 'l'] ++ '\n' :: []) =
      ([], LoopEnd.crashed (JsError.typeError "Cannot read properties of null (reading method)") []) := by
  refine ⟨rfl, rfl, rfl, ?_⟩
  rw [processBuf_some hostA (takeLine_of_split ['n', 'u', 'l', 'l'] [] (by decide)),
    if_neg (by decide)]
  rfl

/-- C1, amended: for every request parsed from a line EXCEPT the JSON
value `null` (the only parse result on which the pre-try log line's
property accesses throw), if dispatching the request fails with any
error, the Request/Response Cycle catches it and returns the response
`{id: request.id, error: {message}}`, where the message is the error's
`.message` (or its string form when the message is absent or empty); the
error does not escape `handleRequest`. -/
theorem spec_c1 (host : Host) (req : JValue)
    (h1 : req ≠ JValue.null) (h2 : req ≠ JValue.undef) :
    (handleRequest host req).isOk = true ∧
    ∀ e, dispatch host (jsGetD req "method") (jsGetD req "params") = Except.error e →
      handleRequest host req =
        Except.ok { id := jsGetD req "id", result := none, error := some e.toMessage } := by
  rw [handleRequest_eq_ok host req h1 h2]
  refine ⟨rfl, fun e he => ?_⟩
  rw [he]

/-- Witness for C1 (amended): a request whose method is unknown gets the
error caught and echoed as `{id: 3, error: {message: "Unknown method:
bogus"}}`. -/
theorem spec_c1_witness :
    handleRequest hostA (JValue.obj [("id", JValue.num 3), ("method", JValue.str "bogus")]) =
      Except.ok { id := JValue.num 3, result := none, error := some "Unknown method: bogus" } :=
  (spec_c1 hostA (JValue.obj [("id", JValue.num 3), ("method", JValue.str "bogus")])
    (by simp) (by simp)).2 (JsError.ofError "Unknown method: bogus") rfl

/-- C2: a framed line that fails JSON parsing produces the immediate
response `{id: -1, error: {message: "Invalid JSON: ..."}}` and the loop
continues: the remaining responses and the loop outcome are exactly those
of processing the rest of the buffer, so a malformed line neither aborts
the connection nor drops buffered input after it. -/
theorem spec_c2 (host : Host) (line rest : List Char) (e : JsError)
    (hnl : '\n' ∉ line) (hne : jsTrim line ≠ [])
    (hp : host.jsonParse (jsTrim line) = Except.error e) :
    processBuf host (line ++ '\n' :: rest) =
      (invalidJsonResp e :: (processBuf host rest).1, (processBuf host rest).2) := by
  rw [processBuf_some host (takeLine_of_split line rest hnl), if_neg hne, hp]

/-- Witness for C2: a concrete malformed line. -/
theorem spec_c2_witness :
    processBuf hostA (['x'] ++ '\n' :: []) =
      (invalidJsonResp synErr :: (processBuf hostA []).1, (processBuf hostA []).2) :=
  spec_c2 hostA ['x'] [] synErr (by decide) (by decide) rfl

/-- C3: whenever a line parses as JSON and a response is written for it,
that response's id is the request's `id` property and it carries exactly
one of `result`/`error`; a line that fails to parse yields the response
with the sentinel id `-1`. -/
theorem spec_c3 (host : Host) (line rest : List Char)
    (hnl : '\n' ∉ line) (hne : jsTrim line ≠ []) :
    (∀ req resp, host.jsonParse (jsTrim line) = Except.ok req →
      (processBuf host (line ++ '\n' :: rest)).1.head? = some resp →
      resp.id = jsGetD req "id" ∧ resp.result.isSome = resp.error.isNone) ∧
    (∀ e, host.jsonParse (jsTrim line) = Except.error e →
      (processBuf host (line ++ '\n' :: rest)).1.head? = some (invalidJsonResp e) ∧
      (invalidJsonResp e).id = JValue.num (-1)) := by
  have hstep := processBuf_some host (takeLine_of_split line rest hnl)
  rw [if_neg hne] at hstep
  constructor
  · intro req resp hq hhead
    rw [hstep] at hhead
    simp only [hq] at hhead
    rcases hh : handleRequest host req with e | resp'
    · rw [hh] at hhead
      simp at hhead
    · rw [hh] at hhead
      simp only [List.head?_cons, Option.some.injEq] at hhead
      subst hhead
      exact handleRequest_ok_shape host req resp' hh
  · intro e he
    rw [hstep]
    simp only [he]
    exact ⟨rfl, rfl⟩

/-- Witness for C3: the ping request with id 7 is answered with id 7 and
a result; the malformed line `x` is answered with the `-1` sentinel. -/
theorem spec_c3_witness :
    (({ id := JValue.num 7, result := some (JValue.str "pong"), error := none } : Response).id =
        jsGetD (JValue.obj [("id", JValue.num 7), ("method", JValue.str "ping")]) "id" ∧
      ({ id := JValue.num 7, result := some (JValue.str "pong"), error := none } :
          Response).result.isSome =
        ({ id := JValue.num 7, result := some (JValue.str "pong"), error := none } :
          Response).error.isNone) ∧
    ((processBuf hostA (['x'] ++ '\n' :: [])).1.head? = some (invalidJsonResp synErr) ∧
      (invalidJsonResp synErr).id = JValue.num (-1)) := by
  constructor
  · refine (spec_c3 hostA ['o', 'k'] [] (by decide) (by decide)).1
      (JValue.obj [("id", JValue.num 7), ("method", JValue.str "ping")])
      { id := JValue.num 7, result := some (JValue.str "pong"), error := none } rfl ?_
    rw [processBuf_some hostA (takeLine_of_split ['o', 'k'] [] (by decide)), if_neg (by decide)]
    rfl
  · exact (spec_c3 hostA ['x'] [] (by decide) (by decide)).2 synErr rfl

/-- C4, counterexample.  The claim quantifies over BYTE chunks
"regardless of where the chunk boundaries fall", but main.js decodes
each chunk separately (`buffer += data.toString("utf8")`): the byte
stream `C3 A9 0A` — the UTF-8 encoding of the single newline-terminated
line `é` — emits the trimmed line `é` when delivered whole, yet when the
boundary splits the two-byte character (`[C3]` then `[A9 0A]`) the
per-chunk decoder yields U+FFFD U+FFFD and the framer emits a different
line, so the claimed boundary invariance fails. -/
theorem spec_c4_counterexample :
    hostU.utf8Decode [0xC3, 0xA9, 0x0A] = ['\u00E9', '\n'] ∧
    [[0xC3], [0xA9, 0x0A]].flatten = [0xC3, 0xA9, 0x0A] ∧
    feedBytes hostU [] [[0xC3, 0xA9, 0x0A]] = ([['\u00E9']], []) ∧
    feedBytes hostU [] [[0xC3], [0xA9, 0x0A]] = ([['\uFFFD', '\uFFFD']], []) ∧
    feedBytes hostU [] [[0xC3], [0xA9, 0x0A]] ≠ ([['\u00E9']], []) := by
  refine ⟨rfl, rfl, ?_, ?_, ?_⟩
  · show feedChunks [] ([[0xC3, 0xA9, 0x0A]].map hostU.utf8Decode) = ([['\u00E9']], [])
    rw [feedChunks_eq ([[0xC3, 0xA9, 0x0A]].map hostU.utf8Decode) [] rfl]
    rw [frameLoop_some (by decide :
          takeLine (([] : List Char) ++ ([[0xC3, 0xA9, 0x0A]].map hostU.utf8Decode).flatten) =
            some (['\u00E9'], [])),
        if_neg (by decide), frameLoop_none (by decide : takeLine ([] : List Char) = none)]
    decide
  · show feedChunks [] ([[0xC3], [0xA9, 0x0A]].map hostU.utf8Decode) =
      ([['\uFFFD', '\uFFFD']], [])
    rw [feedChunks_eq ([[0xC3], [0xA9, 0x0A]].map hostU.utf8Decode) [] rfl]
    rw [frameLoop_some (by decide :
          takeLine (([] : List Char) ++ ([[0xC3], [0xA9, 0x0A]].map hostU.utf8Decode).flatten) =
            some (['\uFFFD', '\uFFFD'], [])),
        if_neg (by decide), frameLoop_none (by decide : takeLine ([] : List Char) = none)]
    decide
  · intro h
    rw [show feedBytes hostU [] [[0xC3], [0xA9, 0x0A]] =
          feedChunks [] ([[0xC3], [0xA9, 0x0A]].map hostU.utf8Decode) from rfl,
        feedChunks_eq ([[0xC3], [0xA9, 0x0A]].map hostU.utf8Decode) [] rfl,
        frameLoop_some (by decide :
          takeLine (([] : List Char) ++ ([[0xC3], [0xA9, 0x0A]].map hostU.utf8Decode).flatten) =
            some (['\uFFFD', '\uFFFD'], [])),
        if_neg (by decide), frameLoop_none (by decide : takeLine ([] : List Char) = none)] at h
    exact absurd h (by decide)

/-- C4, amended: for every sequence of byte chunks whose PER-CHUNK UTF-8
decodings concatenate to `L1 \n L2 \n ... Ln \n` (each line free of
embedded newlines) — that is, for every chunking of the byte stream that
does not split a multibyte UTF-8 sequence across a boundary — the framer
emits exactly the trimmed lines in order, minus those that trim to
empty, with an empty retained buffer; a boundary inside a multibyte
sequence instead makes the per-chunk decoder emit U+FFFD replacement
characters. -/
theorem spec_c4 (host : Host) (chunks : List (List Nat)) (Ls : List (List Char))
    (hcat : (chunks.map host.utf8Decode).flatten = joinNL Ls)
    (hnl : ∀ L ∈ Ls, '\n' ∉ L) :
    feedBytes host [] chunks = ((Ls.map jsTrim).filter (fun l => !l.isEmpty), []) := by
  unfold feedBytes
  rw [feedChunks_eq (chunks.map host.utf8Decode) [] rfl, List.nil_append, hcat]
  exact frameLoop_joinNL Ls hnl

/-- Witness for C4 (amended): the ASCII text `ab\n c\n\n` split
mid-line into two byte chunks frames as the two trimmed lines `ab` and
`c` (the empty third line is skipped), and a line led by a no-break
space (bytes `C2 A0`) is trimmed to `a` — `U+00A0` is JS trim
whitespace. -/
theorem spec_c4_witness :
    feedBytes hostA [] [[97], [98, 10, 32, 99, 10, 10]] = ([['a', 'b'], ['c']], []) ∧
    feedBytes hostU [] [[0xC2, 0xA0, 0x61, 0x0A]] = ([['a']], []) := by
  constructor
  · rw [spec_c4 hostA [[97], [98, 10, 32, 99, 10, 10]] [['a', 'b'], [' ', 'c'], []]
      (by decide) (by decide)]
    decide
  · rw [spec_c4 hostU [[0xC2, 0xA0, 0x61, 0x0A]] [['\u00A0', 'a']] (by decide) (by decide)]
    decide

/-- C5: dispatch resolution order — exact `ping` answers the constant
`pong`; exact `execute` delegates to the code-execution path; the
prefixes `scene.` / `assets.` / `editor.` strip the prefix (dot
included) and hand the remaining leaf with `params` to that namespace
dispatcher; anything else fails with `Unknown method: <method>` carrying
the original method string. -/
theorem spec_c5 (host : Host) (params : JValue) :
    dispatch host (JValue.str "ping") params = Except.ok (JValue.str "pong") ∧
    dispatch host (JValue.str "execute") params = execute host params ∧
    (∀ leaf : String,
      dispatch host (JValue.str ("scene." ++ leaf)) params = sceneDispatch host leaf params) ∧
    (∀ leaf : String,
      dispatch host (JValue.str ("assets." ++ leaf)) params = assetsDispatch host leaf params) ∧
    (∀ leaf : String,
      dispatch host (JValue.str ("editor." ++ leaf)) params = editorDispatch host leaf params) ∧
    (∀ m : String, m ≠ "ping" → m ≠ "execute" →
      jsStartsWith m "scene." = false → jsStartsWith m "assets." = false →
      jsStartsWith m "editor." = false →
      dispatch host (JValue.str m) params =
        Except.error (JsError.ofError ("Unknown method: " ++ m))) := by
  refine ⟨rfl, rfl, fun leaf => ?_, fun leaf => ?_, fun leaf => ?_,
    fun m h1 h2 h3 h4 h5 => ?_⟩
  · obtain ⟨l⟩ := leaf
    rfl
  · obtain ⟨l⟩ := leaf
    rfl
  · obtain ⟨l⟩ := leaf
    rfl
  · simp [dispatch, h1, h2, h3, h4, h5]

/-- Witness for C5: a namespaced method is stripped and delegated, and an
unknown method produces the tagged error. -/
theorem spec_c5_witness :
    dispatch hostB (JValue.str "scene.listNodes") JValue.undef =
      sceneDispatch hostB "listNodes" JValue.undef ∧
    dispatch hostB (JValue.str "bogus") JValue.undef =
      Except.error (JsError.ofError ("Unknown method: " ++ "bogus")) :=
  ⟨(spec_c5 hostB JValue.undef).2.2.1 "listNodes",
   (spec_c5 hostB JValue.undef).2.2.2.2.2 "bogus" (by decide) (by decide) (by decide)
     (by decide) (by decide)⟩

/-- C9: `scene.*` params normalisation — an array is passed through
unchanged as the handler argument list, a defined non-array value becomes
the one-element list around it, and an absent (undefined) value becomes
the empty list, so absent params cannot crash this layer. -/
theorem spec_c9 (host : Host)
    (mreq : String → String → List JValue → Except JsError JValue) (leaf : String)
    (h : host.messageRequest = some mreq) :
    (∀ xs : List JValue, sceneDispatch host leaf (JValue.arr xs) =
      mreq "scene" "execute-scene-script"
        [JValue.obj [("name", JValue.str "cocos-mcp"), ("method", JValue.str leaf),
                     ("args", JValue.arr xs)]]) ∧
    (sceneDispatch host leaf JValue.undef =
      mreq "scene" "execute-scene-script"
        [JValue.obj [("name", JValue.str "cocos-mcp"), ("method", JValue.str leaf),
                     ("args", JValue.arr [])]]) ∧
    (∀ p : JValue, (∀ xs, p ≠ JValue.arr xs) → p ≠ JValue.undef →
      sceneDispatch host leaf p =
        mreq "scene" "execute-scene-script"
          [JValue.obj [("name", JValue.str "cocos-mcp"), ("method", JValue.str leaf),
                       ("args", JValue.arr [p])]]) := by
  unfold sceneDispatch
  rw [h]
  refine ⟨fun xs => rfl, rfl, fun p hp hu => ?_⟩
  cases p with
  | arr xs => exact absurd rfl (hp xs)
  | undef => exact absurd rfl hu
  | null => rfl
  | bool b => rfl
  | num n => rfl
  | str s => rfl
  | obj fs => rfl

/-- Witness for C9: an absent params dispatches with an empty args list. -/
theorem spec_c9_witness :
    sceneDispatch hostB "listNodes" JValue.undef = Except.ok (JValue.str "execute-scene-script") :=
  (spec_c9 hostB (fun _ msg _ => Except.ok (JValue.str msg)) "listNodes" rfl).2.1

/-- C10, counterexample.  `toString` is neither `request` nor one of the
nine mapped names, yet the object-literal lookup `mapping["toString"]`
hits `Object.prototype.toString` — a truthy value — so `!entry` is false
and the code calls `requestAssetDB` with `entry.msg` (undefined), NOT
with the leaf: at a host whose `Editor.Message.request` answers every
string-named request, `assets.toString` does not behave like forwarding
`"toString"` verbatim. -/
theorem spec_c10_counterexample :
    assetsDispatch hostB "toString" JValue.undef =
      Except.error (JsError.ofError "Message name undefined") ∧
    requestAssetDB hostB (some "toString") JValue.undef none =
      Except.ok (JValue.str "toString") ∧
    assetsDispatch hostB "toString" JValue.undef ≠
      requestAssetDB hostB (some "toString") JValue.undef none := by
  refine ⟨rfl, rfl, fun h => ?_⟩
  rw [show assetsDispatch hostB "toString" JValue.undef =
        Except.error (JsError.ofError "Message name undefined") from rfl,
      show requestAssetDB hostB (some "toString") JValue.undef none =
        Except.ok (JValue.str "toString") from rfl] at h
  exact Except.noConfusion h

/-- C10, amended: an `assets.<leaf>` request whose leaf is neither
`request`, nor one of the mapped friendly names, nor a property name
inherited from `Object.prototype` (constructor, toString, valueOf,
hasOwnProperty, ...) is NOT rejected as unknown — the leaf is forwarded
verbatim as the asset-db message name with params unchanged; for an
inherited property name the mapping lookup is truthy and the dispatcher
instead forwards `undefined` (`entry.msg`) as the message name with no
fallback function name. -/
theorem spec_c10 (host : Host) (m : String) (params : JValue)
    (h0 : m ≠ "request") (h1 : m ≠ "find") (h2 : m ≠ "getInfo") (h3 : m ≠ "create")
    (h4 : m ≠ "import") (h5 : m ≠ "move") (h6 : m ≠ "rename") (h7 : m ≠ "delete")
    (h8 : m ≠ "getDependencies") (h9 : m ≠ "reveal")
    (h10 : m ∉ objectProtoProps) :
    assetsDispatch host m params = requestAssetDB host (some m) params none ∧
    (∀ (mreq : String → String → List JValue → Except JsError JValue) (v : JValue),
      host.messageRequest = some mreq →
      mreq "asset-db" m [params] = Except.ok v →
      assetsDispatch host m params = Except.ok v) ∧
    (∀ m2 ∈ objectProtoProps,
      assetsDispatch host m2 params = requestAssetDB host none params none) := by
  have hmap : assetsMapping m = MappingEntry.missing := by
    unfold assetsMapping
    simp [h1, h2, h3, h4, h5, h6, h7, h8, h9, h10]
  have heq : assetsDispatch host m params = requestAssetDB host (some m) params none := by
    unfold assetsDispatch
    rw [if_neg h0, hmap]
  refine ⟨heq, fun mreq v hm hv => ?_, fun m2 hm2 => ?_⟩
  · rw [heq]
    unfold requestAssetDB
    simp only [hm, hv]
  · fin_cases hm2 <;> rfl

/-- Witness for C10 (amended): an unmapped, non-prototype leaf is
forwarded verbatim. -/
theorem spec_c10_witness :
    assetsDispatch hostB "open-asset" JValue.undef = Except.ok (JValue.str "open-asset") :=
  (spec_c10 hostB "open-asset" JValue.undef (by decide) (by decide) (by decide) (by decide)
      (by decide) (by decide) (by decide) (by decide) (by decide) (by decide) (by decide)).2.1
    (fun _ msg _ => Except.ok (JValue.str msg)) (JValue.str "open-asset") rfl rfl

/-- C6: `start()` is idempotent (an existing listener is kept, never
rebound, so two consecutive starts yield exactly one bound listener);
`stop()` on a stopped server is a no-op destroying nothing; `stop()` on a
running server destroys exactly the active set, clears it, closes the
listener (state back to Stopped) so a subsequent `start()` rebinds, and
the connection count reported afterwards is 0. -/
theorem spec_c6 (host : Host) (s : ServerState) (A : Finset Nat) (p : Int) :
    startServer host (startServer host s) = startServer host s ∧
    (startServer host s).server.isSome = true ∧
    startServer host { server := some p, activeSockets := A } =
      { server := some p, activeSockets := A } ∧
    stopServer { server := none, activeSockets := A } =
      ({ server := none, activeSockets := A }, ∅) ∧
    stopServer { server := some p, activeSockets := A } =
      ({ server := none, activeSockets := ∅ }, A) ∧
    (startServer host (stopServer { server := some p, activeSockets := A }).1).server =
      some (getPort host) ∧
    jLookup (statusQuery host (stopServer { server := some p, activeSockets := A }).1)
      "clients" = some (JValue.num 0) := by
  obtain ⟨srv, act⟩ := s
  refine ⟨?_, ?_, rfl, rfl, rfl, rfl, rfl⟩
  · cases srv <;> rfl
  · cases srv <;> rfl

/-- C7, counterexample.  The claim states the status object has the
field name `connectionCount`; the code returns the count under the key
`clients`, so looking up `connectionCount` on a concrete status object
yields nothing while `clients` is present. -/
theorem spec_c7_counterexample :
    jLookup (statusQuery hostA { server := none, activeSockets := ∅ }) "connectionCount" =
      none ∧
    jLookup (statusQuery hostA { server := none, activeSockets := ∅ }) "clients" =
      some (JValue.num 0) :=
  ⟨rfl, rfl⟩

/-- C7, amended: `status()` returns the object
`{running: bool, port: number, clients: number}` (computed without
mutating any state in the model), where `running` reflects whether a
listener exists, `port` is the resolved port, and `clients` — not
`connectionCount` — is the current size of the active-connection set. -/
theorem spec_c7 (host : Host) (s : ServerState) :
    jLookup (statusQuery host s) "running" = some (JValue.bool s.server.isSome) ∧
    jLookup (statusQuery host s) "port" = some (JValue.num (getPort host)) ∧
    jLookup (statusQuery host s) "clients" =
      some (JValue.num (s.activeSockets.card : Int)) ∧
    jLookup (statusQuery host s) "connectionCount" = none :=
  ⟨rfl, rfl, rfl, rfl⟩

/-- C8: port resolution priority — the environment override when truthy
and numeric, else the project-profile value when the getter exists,
returns without throwing and yields a numeric value, else the fixed
default 8787; a throwing profile lookup is swallowed into the default.
(The model's `getPort` is a total function, so resolution always returns
a number and never throws.) -/
theorem spec_c8 (host : Host) :
    (∀ s n, host.envPort = some s → s ≠ "" → host.strNum s = some n → getPort host = n) ∧
    (∀ pg v n, (∀ s, host.envPort = some s → s = "" ∨ host.strNum s = none) →
      host.profileGet = some pg → pg "cocos-mcp" "port" = Except.ok v →
      host.valNum v = some n → getPort host = n) ∧
    (∀ pg e, (∀ s, host.envPort = some s → s = "" ∨ host.strNum s = none) →
      host.profileGet = some pg → pg "cocos-mcp" "port" = Except.error e →
      getPort host = DEFAULT_PORT) ∧
    (∀ pg v, (∀ s, host.envPort = some s → s = "" ∨ host.strNum s = none) →
      host.profileGet = some pg → pg "cocos-mcp" "port" = Except.ok v →
      host.valNum v = none → getPort host = DEFAULT_PORT) ∧
    ((∀ s, host.envPort = some s → s = "" ∨ host.strNum s = none) →
      host.profileGet = none → getPort host = DEFAULT_PORT) := by
  have henv : (∀ s, host.envPort = some s → s = "" ∨ host.strNum s = none) →
      getPort host = getPortFallback host := by
    intro hmiss
    unfold getPort
    cases he : host.envPort with
    | none => rfl
    | some s =>
      show (if s = "" then getPortFallback host
            else
              match host.strNum s with
              | some n => n
              | none => getPortFallback host) = getPortFallback host
      by_cases hse : s = ""
      · rw [if_pos hse]
      · rw [if_neg hse]
        rcases hmiss s he with hs | hs
        · exact absurd hs hse
        · rw [hs]
  refine ⟨?_, ?_, ?_, ?_, ?_⟩
  · intro s n hs hne hn
    unfold getPort
    simp only [hs, if_neg hne, hn]
  · intro pg v n hmiss hpg hcall hval
    rw [henv hmiss]
    unfold getPortFallback
    simp only [hpg, hcall, hval]
  · intro pg e hmiss hpg hcall
    rw [henv hmiss]
    unfold getPortFallback
    simp only [hpg, hcall]
  · intro pg v hmiss hpg hcall hval
    rw [henv hmiss]
    unfold getPortFallback
    simp only [hpg, hcall, hval]
  · intro hmiss hpg
    rw [henv hmiss]
    unfold getPortFallback
    simp only [hpg]

/-- Witness for C8: each resolution source at a concrete host — the
environment override, the profile value, a throwing profile lookup, and
the absent-everything default. -/
theorem spec_c8_witness :
    getPort hostEnv = 9001 ∧ getPort hostProf = 9100 ∧
    getPort hostProfErr = DEFAULT_PORT ∧ getPort hostA = DEFAULT_PORT :=
  ⟨(spec_c8 hostEnv).1 "9001" 9001 rfl (by decide) rfl,
   (spec_c8 hostProf).2.1 (fun _ _ => Except.ok (JValue.num 9100)) (JValue.num 9100) 9100
     (fun _ hs => Option.noConfusion hs) rfl rfl rfl,
   (spec_c8 hostProfErr).2.2.1 (fun _ _ => Except.error (JsError.ofError "profile failure"))
     (JsError.ofError "profile failure") (fun _ hs => Option.noConfusion hs) rfl rfl,
   (spec_c8 hostA).2.2.2.2 (fun _ hs => Option.noConfusion hs) rfl⟩
